import Mathlib

/-!
Verification of the fixed-window rate-limiting middleware
(`actix-ratelimit`, `src/lib.rs`) against its specification.

The middleware's decision path (`RateLimitMiddleware::call`,
`src/lib.rs` lines 183-281) is embedded as a pure Lean function over an
explicit store state.  The in-process store (`mod stores`, the
`MemoryStore` actor) and the error enumeration (`mod errors`) are not
part of the provided sources, so their behaviour is modelled from the
specification where noted.
-/

namespace RateLimit

/-- Rust `std::time::Duration`: whole seconds plus a nanosecond part
`< 10^9`.  We carry no invariant on `nanos`; constructors used by the
model (`fromSecs`, `ofNanos`, `add`, `sub`) always produce a normalized
value, as Rust's do. -/
structure Duration where
  secs : Nat
  nanos : Nat
  deriving Repr, DecidableEq

namespace Duration

/-- Total length in nanoseconds. -/
def toNanos (d : Duration) : Nat := d.secs * 1000000000 + d.nanos

/-- Normalizing constructor from a nanosecond count. -/
def ofNanos (n : Nat) : Duration := ⟨n / 1000000000, n % 1000000000⟩

/-- Rust `Duration::from_secs`. -/
def fromSecs (s : Nat) : Duration := ⟨s, 0⟩

/-- Rust `Duration::as_secs`: the whole-second part (the nanosecond
remainder is discarded). -/
def asSecs (d : Duration) : Nat := d.secs

/-- Rust `Duration` addition (normalizes the nanosecond carry). -/
def add (a b : Duration) : Duration := ofNanos (a.toNanos + b.toNanos)

/-- Saturating difference, as in `Duration::saturating_sub` /
`checked_sub.unwrap_or_default`. -/
def sub (a b : Duration) : Duration := ofNanos (a.toNanos - b.toNanos)

/-- Strict comparison of durations / absolute timestamps. -/
def lt (a b : Duration) : Prop := a.toNanos < b.toNanos

instance (a b : Duration) : Decidable (lt a b) :=
  inferInstanceAs (Decidable (a.toNanos < b.toNanos))

end Duration

/-- A live counter entry: the remaining count and the absolute expiry
timestamp (stored by the middleware as `now + interval`,
`src/lib.rs` line 253). -/
structure Entry where
  value : Nat
  expiry : Duration
  deriving Repr, DecidableEq

/-- The per-key state of the store: a map from client key to entry. -/
def Store := String → Option Entry

/-- The empty store: no entry for any key. -/
def Store.empty : Store := fun _ => none

/-- Modelled from the spec: the `MemoryStore` handler for
`Messages::Get` (`mod stores` is not among the provided sources).
§4.1 `Query(key) -> Option<remaining>`: the current remaining count, or
none if no live entry; §9: expired entries are not swept proactively, a
post-expiry request is treated as a new window, so liveness is checked
lazily against `now < expiry`. -/
def Store.get (s : Store) (key : String) (now : Duration) : Option Nat :=
  match s key with
  | some e => if Duration.lt now e.expiry then some e.value else none
  | none => none

/-- Modelled from the spec: the `MemoryStore` handler for
`Messages::Set { key, value, change, expiry }` (`mod stores` is not
among the provided sources).  §4.1 `Create(key, initial_remaining,
expiry)` installs a fresh entry (the middleware sends `value =
max_requests, change = 0, expiry = Some _`, `src/lib.rs` lines 248-255)
and the admitted-request decrement stores one less than the count the
middleware read (the middleware sends `value = c, change = 1, expiry =
None`, lines 218-225); so the stored count is `value - change`.  §3:
`expiry` is fixed at creation time, so a `None` expiry keeps the
existing one. -/
def Store.set (s : Store) (key : String) (value change : Nat)
    (expiry : Option Duration) : Store :=
  fun k =>
    if k = key then
      some ⟨value - change,
        match expiry, s key with
        | some d, _ => d
        | none, some e => e.expiry
        | none, none => Duration.fromSecs 0⟩
    else s k

/-- Modelled from the spec: the `MemoryStore` reply to
`Messages::Expire` for a key holding an entry (`mod stores` is not
among the provided sources).  §4.1 `TimeToLive(key)`: the remaining
time until the key's window ends. -/
def Store.ttl (e : Entry) (now : Duration) : Duration :=
  Duration.sub e.expiry now

/-- A reply to the `Messages::Expire` message as matched by the
middleware (`src/lib.rs` lines 200-206): either the expected
`Responses::Expire` variant carrying a duration, or any other
`Responses` variant. -/
inductive ExpireReply where
  | expire (d : Duration)
  | other
  deriving Repr, DecidableEq

/-- The middleware's computation of the `reset` duration from the
store's reply to `Messages::Expire`, `src/lib.rs` lines 200-206:
the carried duration on `Responses::Expire(dur)`, and otherwise
`SystemTime::now().duration_since(UNIX_EPOCH).unwrap() + interval`
(`now` is the time since the Unix epoch). -/
def resetOf (reply : ExpireReply) (now : Duration) (interval : Duration) :
    Duration :=
  match reply with
  | .expire dur => dur
  | .other => Duration.add now interval

/-- The three `x-ratelimit-*` response headers, each a decimal string
of a non-negative integer (modelled as `Nat`). -/
structure Headers where
  limit : Nat
  remaining : Nat
  reset : Nat
  deriving Repr, DecidableEq

/-- Modelled from the spec: the error kinds of `mod errors` (`ARError`,
not among the provided sources), §7: `IdentifierUnavailable`,
`StoreUnavailable`/`StoreTimeout`, `StoreProtocolError`. -/
inductive ARError where
  | identifierUnavailable
  | storeUnavailable
  | storeTimeout
  | storeProtocolError
  deriving Repr, DecidableEq

/-- What the error branch of the middleware future resolves to: either
a propagated `ARError` (the `?` operators) or the
`HttpResponse::TooManyRequests` built on the exhausted path, which is
returned through `Err(response.into())` (`src/lib.rs` line 214). -/
inductive CallError where
  | tooManyRequests (h : Headers)
  | arError (e : ARError)
  deriving Repr, DecidableEq

/-- The outcome of one `RateLimitMiddleware::call` decision:
`ok` is a forwarded downstream response carrying the three headers
(`Ok(res)`, lines 243 and 273); `err` is the `Err` channel of the
service future; `panicked` models an `unwrap` panic inside the future
(no value is returned at all). -/
inductive CallResult where
  | ok (h : Headers)
  | err (e : CallError)
  | panicked
  deriving Repr, DecidableEq

/-- A store message sent by the middleware (the `Messages` enum,
`src/lib.rs` lines 27-37, restricted to the variants `call` sends). -/
inductive Msg where
  | get (key : String)
  | set (key : String) (value change : Nat) (expiry : Option Duration)
  | expire (key : String)
  deriving Repr, DecidableEq

/-- The result of the identifier closure `Fn(&ServiceRequest) -> String`:
either the produced key, or a panic inside the closure. -/
inductive ExtractResult where
  | key (s : String)
  | panic
  deriving Repr, DecidableEq

/-- The part of an actix `ServiceRequest` the model needs: the peer
address' IP rendered as a string, when a peer address is known. -/
structure ServiceRequest where
  peer_ip : Option String
  deriving Repr, DecidableEq

/-- The default identifier installed by `RateLimiter::new` and
`RateLimiter::default` (`src/lib.rs` lines 81-84 and 101-104):
`req.peer_addr().unwrap().ip().to_string()`.  The `unwrap` panics when
the request has no peer address. -/
def default_identifier (req : ServiceRequest) : ExtractResult :=
  match req.peer_ip with
  | some ip => ExtractResult.key ip
  | none => ExtractResult.panic

/-- One `RateLimitMiddleware::call` decision (`src/lib.rs` lines
183-281), as a pure function of the store state.  `max_requests` and
`interval` are the fields of `RateLimitMiddleware` (`interval : u64`,
whole seconds; the body reconstructs `Duration::from_secs(interval)`,
line 187).  `now` is `SystemTime::now()` as a duration since
`UNIX_EPOCH`.  The downstream service is modelled as always succeeding
(the claims only concern the middleware's own decision).  Returns the
outcome, the store after the decision, and the list of store messages
sent. -/
def call (max_requests : Nat) (interval : Nat)
    (identify : ServiceRequest → ExtractResult)
    (store : Store) (now : Duration) (req : ServiceRequest) :
    CallResult × Store × List Msg :=
  match identify req with
  | ExtractResult.panic => (CallResult.panicked, store, [])
  | ExtractResult.key identifier =>
    let intervalD := Duration.fromSecs interval
    match Store.get store identifier now with
    | some c =>
      -- Existing entry in store: fetch the TTL (lines 197-206).
      let reply : ExpireReply :=
        match store identifier with
        | some e => ExpireReply.expire (Store.ttl e now)
        | none => ExpireReply.other
      let reset : Duration := resetOf reply now intervalD
      if c = 0 then
        -- Limit exceeded (lines 207-214): 429 through Err.
        (CallResult.err (CallError.tooManyRequests
            ⟨max_requests, c, reset.asSecs⟩),
          store, [Msg.get identifier, Msg.expire identifier])
      else
        -- Decrement, forward, annotate (lines 215-244).
        (CallResult.ok ⟨max_requests, c, reset.asSecs⟩,
          Store.set store identifier c 1 none,
          [Msg.get identifier, Msg.expire identifier,
            Msg.set identifier c 1 none])
    | none =>
      -- New client: create entry, forward, annotate (lines 245-274).
      (CallResult.ok ⟨max_requests, max_requests, intervalD.asSecs⟩,
        Store.set store identifier max_requests 0
          (some (Duration.add now intervalD)),
        [Msg.get identifier,
          Msg.set identifier max_requests 0
            (some (Duration.add now intervalD))])

/-- A store holding exactly one entry. -/
def Store.single (key : String) (v : Nat) (ex : Duration) : Store :=
  fun k => if k = key then some ⟨v, ex⟩ else none

/-- `n` sequential `call` decisions on the same request at a fixed
time `now` (the "same window" scenarios of §8), threading the store;
returns the outcomes in order together with the final store. -/
def run (max_requests interval : Nat) (identify : ServiceRequest → ExtractResult)
    (now : Duration) (req : ServiceRequest) :
    Nat → Store → List CallResult × Store
  | 0, store => ([], store)
  | n + 1, store =>
    let r := call max_requests interval identify store now req
    let rest := run max_requests interval identify now req n r.2.1
    (r.1 :: rest.1, rest.2)

/-- The outcomes of `j` consecutive admissions starting from a live
count `v`: each reports the pre-decrement count `v, v-1, ...` as
`remaining`, together with `limit = m` and `reset = r`. -/
def admittedTrace (m v r : Nat) : Nat → List CallResult
  | 0 => []
  | j + 1 => CallResult.ok ⟨m, v, r⟩ :: admittedTrace m (v - 1) r j

/-- `true` exactly on a forwarded (admitted) outcome. -/
def CallResult.isAdmitted : CallResult → Bool
  | .ok _ => true
  | _ => false

/-- The `x-ratelimit-remaining` header of an outcome that carries
headers. -/
def CallResult.remainingOf : CallResult → Option Nat
  | .ok h => some h.remaining
  | .err (.tooManyRequests h) => some h.remaining
  | _ => none

/-- The configuration fields of `RateLimiter` (`src/lib.rs` lines
67-76): the window `interval` as a full `std::time::Duration`, the
quota `max_requests`, and the identifier closure.  (The store actor
address is an external handle and is not part of the embedded
configuration.) -/
structure RateLimiter where
  interval : Duration
  max_requests : Nat
  identifier : ServiceRequest → ExtractResult

/-- `RateLimiter::new` (`src/lib.rs` lines 100-111): interval
`Duration::from_secs(0)`, `max_requests = 0`, default identifier. -/
def RateLimiter.new : RateLimiter :=
  ⟨Duration.fromSecs 0, 0, default_identifier⟩

/-- `RateLimiter::with_interval` (`src/lib.rs` lines 114-117). -/
def RateLimiter.with_interval (r : RateLimiter) (interval : Duration) :
    RateLimiter :=
  { r with interval := interval }

/-- `RateLimiter::with_max_requests` (`src/lib.rs` lines 120-123). -/
def RateLimiter.with_max_requests (r : RateLimiter) (max_requests : Nat) :
    RateLimiter :=
  { r with max_requests := max_requests }

/-- The configuration fields of `RateLimitMiddleware` (`src/lib.rs`
lines 153-164): `max_requests : usize` and `interval : u64` (whole
seconds). -/
structure RateLimitMiddleware where
  max_requests : Nat
  interval : Nat
  get_identifier : ServiceRequest → ExtractResult

/-- `Transform::new_transform` (`src/lib.rs` lines 141-149): the
middleware is built with `interval: self.interval.as_secs()` — the
configured interval truncated to whole seconds. -/
def new_transform (r : RateLimiter) : RateLimitMiddleware :=
  ⟨r.max_requests, r.interval.asSecs, r.identifier⟩

/-- The window duration the decision path actually uses:
`Duration::from_secs(self.interval)` (`src/lib.rs` line 187). -/
def effectiveInterval (mw : RateLimitMiddleware) : Duration :=
  Duration.fromSecs mw.interval

/-- The control state of one in-flight `call` future between its
`await` points on store messages (each `store.send(..).await` lets the
store actor process other decisions' messages in between):
`start` is before sending `Messages::Get` (line 191); `gotGet c` is
after its reply (lines 193-195); `gotExpire c reset` is after the
`Messages::Expire` reply on the existing-entry branch (lines 197-206);
`finished admitted h` is a settled decision with its headers. -/
inductive Phase where
  | start
  | gotGet (c : Option Nat)
  | gotExpire (c : Nat) (reset : Duration)
  | finished (admitted : Bool) (h : Headers)
  deriving Repr, DecidableEq

/-- One step of one decision future for key `key`: the store work done
up to its next `await`, mirroring `call` (`src/lib.rs` lines 189-274).
A `start` decision has its `Get` processed; a `gotGet (some c)`
decision has its `Expire` processed; a `gotGet none` decision has its
creating `Set` processed and finishes admitted; a `gotExpire`
decision either finishes rejected (`c == 0`) or has its decrementing
`Set { value: c, change: 1 }` processed — `c` being the count it read
earlier — and finishes admitted. -/
def stepDecision (m interval : Nat) (key : String) (now : Duration)
    (store : Store) (ph : Phase) : Store × Phase :=
  match ph with
  | .start => (store, .gotGet (Store.get store key now))
  | .gotGet (some c) =>
    let reply : ExpireReply :=
      match store key with
      | some e => ExpireReply.expire (Store.ttl e now)
      | none => ExpireReply.other
    (store, .gotExpire c (resetOf reply now (Duration.fromSecs interval)))
  | .gotGet none =>
    (Store.set store key m 0
        (some (Duration.add now (Duration.fromSecs interval))),
      .finished true ⟨m, m, interval⟩)
  | .gotExpire c reset =>
    if c = 0 then (store, .finished false ⟨m, c, reset.asSecs⟩)
    else (Store.set store key c 1 none,
      .finished true ⟨m, c, reset.asSecs⟩)
  | .finished a h => (store, .finished a h)

/-- Advance the `i`-th of several concurrent decisions on one key by
one step, sharing the store. -/
def stepAt (m interval : Nat) (key : String) (now : Duration)
    (st : Store × List Phase) (i : Nat) : Store × List Phase :=
  match st.2[i]? with
  | none => st
  | some ph =>
    let r := stepDecision m interval key now st.1 ph
    (r.1, st.2.set i r.2)

/-- Run an interleaving of concurrent decisions: the schedule lists,
in order, which decision takes its next step. -/
def exec (m interval : Nat) (key : String) (now : Duration)
    (sched : List Nat) (st : Store × List Phase) : Store × List Phase :=
  sched.foldl (stepAt m interval key now) st

/-- A schedule segment in which each of `n` decisions takes one step:
decision 0 first, then decisions 1, 2, ... -/
def oneEach : Nat → List Nat
  | 0 => []
  | n + 1 => 0 :: (oneEach n).map (· + 1)

/-- A schedule segment in which each of `n` decisions takes two
consecutive steps, decision 0 first. -/
def twoEach : Nat → List Nat
  | 0 => []
  | n + 1 => 0 :: 0 :: (twoEach n).map (· + 1)

/-- The adversarial interleaving of `n` concurrent decisions: every
decision's `Get` is processed before any decision's `Set` (first each
takes one step, then each runs to completion). -/
def racySched (n : Nat) : List Nat := oneEach n ++ twoEach n

/-- `true` exactly on a decision that finished admitted (its request
was forwarded downstream). -/
def Phase.isAdmittedPhase : Phase → Bool
  | .finished true _ => true
  | _ => false

theorem Duration.toNanos_ofNanos (n : Nat) :
    (Duration.ofNanos n).toNanos = n := by
  simp only [Duration.ofNanos, Duration.toNanos]
  omega

theorem Duration.toNanos_fromSecs (s : Nat) :
    (Duration.fromSecs s).toNanos = s * 1000000000 := by
  simp [Duration.fromSecs, Duration.toNanos]

theorem Duration.add_fromSecs_sub (now : Duration) (s : Nat) :
    Duration.sub (Duration.add now (Duration.fromSecs s)) now =
      Duration.fromSecs s := by
  simp only [Duration.sub, Duration.add, Duration.toNanos_ofNanos,
    Duration.toNanos_fromSecs]
  simp only [Duration.ofNanos, Duration.fromSecs, Duration.mk.injEq]
  omega

theorem Store.single_apply_self (k : String) (v : Nat) (ex : Duration) :
    Store.single k v ex k = some ⟨v, ex⟩ := by
  simp [Store.single]

theorem Store.set_single_dec (k : String) (v c : Nat) (ex : Duration) :
    Store.set (Store.single k v ex) k c 1 none = Store.single k (c - 1) ex := by
  funext k'
  by_cases h : k' = k <;> simp [Store.set, Store.single, h]

theorem Store.set_empty_create (k : String) (m : Nat) (d : Duration) :
    Store.set Store.empty k m 0 (some d) = Store.single k m d := by
  funext k'
  by_cases h : k' = k <;> simp [Store.set, Store.single, Store.empty, h]

theorem call_new (m interval : Nat) (identify : ServiceRequest → ExtractResult)
    (store : Store) (now : Duration) (req : ServiceRequest) (k : String)
    (h1 : identify req = ExtractResult.key k)
    (h2 : Store.get store k now = none) :
    call m interval identify store now req =
      (CallResult.ok ⟨m, m, interval⟩,
        Store.set store k m 0 (some (Duration.add now (Duration.fromSecs interval))),
        [Msg.get k,
          Msg.set k m 0 (some (Duration.add now (Duration.fromSecs interval)))]) := by
  simp [call, h1, h2, Duration.asSecs, Duration.fromSecs]

theorem call_live_pos (m interval : Nat) (identify : ServiceRequest → ExtractResult)
    (store : Store) (now : Duration) (req : ServiceRequest) (k : String) (e : Entry)
    (h1 : identify req = ExtractResult.key k)
    (h2 : store k = some e)
    (h3 : Duration.lt now e.expiry)
    (h4 : e.value ≠ 0) :
    call m interval identify store now req =
      (CallResult.ok ⟨m, e.value, (Duration.sub e.expiry now).asSecs⟩,
        Store.set store k e.value 1 none,
        [Msg.get k, Msg.expire k, Msg.set k e.value 1 none]) := by
  simp [call, h1, Store.get, h2, h3, h4, Store.ttl, resetOf]

theorem call_live_zero (m interval : Nat) (identify : ServiceRequest → ExtractResult)
    (store : Store) (now : Duration) (req : ServiceRequest) (k : String) (e : Entry)
    (h1 : identify req = ExtractResult.key k)
    (h2 : store k = some e)
    (h3 : Duration.lt now e.expiry)
    (h4 : e.value = 0) :
    call m interval identify store now req =
      (CallResult.err (CallError.tooManyRequests
          ⟨m, 0, (Duration.sub e.expiry now).asSecs⟩),
        store, [Msg.get k, Msg.expire k]) := by
  simp [call, h1, Store.get, h2, h3, h4, Store.ttl, resetOf]

theorem admittedTrace_eq_map (m r : Nat) :
    ∀ j v, admittedTrace m v r j =
      (List.range j).map (fun i => CallResult.ok ⟨m, v - i, r⟩) := by
  intro j
  induction j with
  | zero => intro v; simp [admittedTrace]
  | succ j ih =>
    intro v
    rw [admittedTrace, ih (v - 1), List.range_succ_eq_map, List.map_cons,
      List.map_map]
    refine congrArg₂ _ (by simp) ?_
    apply List.map_congr_left
    intro a _
    have hva : v - 1 - a = v - (a + 1) := by omega
    simp [Function.comp, hva]

theorem admittedTrace_length (m v r j : Nat) :
    (admittedTrace m v r j).length = j := by
  induction j generalizing v with
  | zero => rfl
  | succ j ih => simp [admittedTrace, ih]

theorem admittedTrace_all_ok (m r : Nat) :
    ∀ j v, ∀ c ∈ admittedTrace m v r j, ∃ h, c = CallResult.ok h := by
  intro j
  induction j with
  | zero => intro v c hc; simp [admittedTrace] at hc
  | succ j ih =>
    intro v c hc
    rw [admittedTrace, List.mem_cons] at hc
    rcases hc with h | h
    · exact ⟨_, h⟩
    · exact ih (v - 1) c h

/-- Trace of `j ≤ v` sequential decisions against a live entry holding
count `v`: every one is admitted, the reported `remaining` is the
pre-decrement count, and the stored count ends at `v - j`. -/
theorem run_live_trace (m interval : Nat) (identify : ServiceRequest → ExtractResult)
    (now : Duration) (req : ServiceRequest) (k : String) (ex : Duration)
    (h1 : identify req = ExtractResult.key k)
    (hlive : Duration.lt now ex) :
    ∀ j v, j ≤ v →
      run m interval identify now req j (Store.single k v ex) =
        (admittedTrace m v (Duration.sub ex now).asSecs j,
          Store.single k (v - j) ex) := by
  intro j
  induction j with
  | zero => intro v _; simp [run, admittedTrace]
  | succ j ih =>
    intro v hj
    have hv : v ≠ 0 := by omega
    have hcall := call_live_pos m interval identify (Store.single k v ex) now req k
      ⟨v, ex⟩ h1 (Store.single_apply_self k v ex) hlive hv
    have hrest := ih (v - 1) (by omega)
    simp only [run, hcall, Store.set_single_dec, hrest, admittedTrace]
    have hvj : v - 1 - j = v - (j + 1) := by omega
    rw [hvj]

theorem Duration.lt_add_fromSecs (now : Duration) {s : Nat} (h : 0 < s) :
    Duration.lt now (Duration.add now (Duration.fromSecs s)) := by
  simp only [Duration.lt, Duration.add, Duration.toNanos_ofNanos,
    Duration.toNanos_fromSecs]
  omega

theorem Store.get_empty (k : String) (now : Duration) :
    Store.get Store.empty k now = none := rfl

theorem run_add (m interval : Nat) (idf : ServiceRequest → ExtractResult)
    (now : Duration) (req : ServiceRequest) :
    ∀ a b store,
      run m interval idf now req (a + b) store =
        ((run m interval idf now req a store).1 ++
            (run m interval idf now req b
              (run m interval idf now req a store).2).1,
          (run m interval idf now req b
            (run m interval idf now req a store).2).2) := by
  intro a
  induction a with
  | zero => intro b store; simp [run]
  | succ a ih =>
    intro b store
    rw [Nat.succ_add]
    simp only [run, ih]
    rfl

/-- Full trace of `max_requests + 2` sequential decisions for one key,
starting from no entry, within one window (`0 < interval`): the first
request is admitted with `remaining = max_requests` (new-client branch,
which does not consume quota), the next `max_requests` are admitted
reporting the pre-decrement counts `max_requests, ..., 1`, and the
`(max_requests + 2)`-th is rejected with `remaining = 0`. -/
theorem run_empty_full (m interval : Nat) (idf : ServiceRequest → ExtractResult)
    (now : Duration) (req : ServiceRequest) (k : String)
    (h1 : idf req = ExtractResult.key k) (h2 : 0 < interval) :
    run m interval idf now req (m + 2) Store.empty =
      (CallResult.ok ⟨m, m, interval⟩ ::
          (admittedTrace m m interval m ++
            [CallResult.err (CallError.tooManyRequests ⟨m, 0, interval⟩)]),
        Store.single k 0 (Duration.add now (Duration.fromSecs interval))) := by
  have hex : Duration.lt now (Duration.add now (Duration.fromSecs interval)) :=
    Duration.lt_add_fromSecs now h2
  have hc1 := call_new m interval idf Store.empty now req k h1
    (Store.get_empty k now)
  have hrun1 : run m interval idf now req 1 Store.empty =
      ([CallResult.ok ⟨m, m, interval⟩],
        Store.single k m (Duration.add now (Duration.fromSecs interval))) := by
    simp [run, hc1, Store.set_empty_create]
  have hAs : (Duration.fromSecs interval).asSecs = interval := rfl
  have htr := run_live_trace m interval idf now req k
    (Duration.add now (Duration.fromSecs interval)) h1 hex m m (Nat.le_refl m)
  rw [Duration.add_fromSecs_sub, hAs] at htr
  have hzero := call_live_zero m interval idf
    (Store.single k 0 (Duration.add now (Duration.fromSecs interval))) now req k
    ⟨0, Duration.add now (Duration.fromSecs interval)⟩ h1
    (Store.single_apply_self k 0 _) hex rfl
  have hrunz : run m interval idf now req 1
      (Store.single k 0 (Duration.add now (Duration.fromSecs interval))) =
      ([CallResult.err (CallError.tooManyRequests ⟨m, 0, interval⟩)],
        Store.single k 0 (Duration.add now (Duration.fromSecs interval))) := by
    rw [Duration.add_fromSecs_sub, hAs] at hzero
    simp [run, hzero]
  have hsplit : m + 2 = 1 + (m + 1) := by omega
  rw [hsplit, run_add, hrun1]
  have hmm : m - m = 0 := by omega
  rw [run_add, htr, hmm, hrunz]
  simp

theorem admittedTrace_all_admitted (m r : Nat) :
    ∀ j v, (admittedTrace m v r j).all CallResult.isAdmitted = true := by
  intro j
  induction j with
  | zero => intro v; rfl
  | succ j ih =>
    intro v
    simp only [admittedTrace, List.all_cons, ih (v - 1)]
    rfl

/-- C1 counterexample: with `max_requests = 1` and a 60-second window,
both of the first two sequential decisions from an empty store are
admitted, so a sequence of `max_requests + 1` decisions admits
`max_requests + 1` of them, not at most `max_requests`. -/
theorem c1_counterexample :
    ((run 1 60 default_identifier ⟨0, 0⟩ ⟨some "a"⟩ 2 Store.empty).1.countP
        CallResult.isAdmitted) = 2 ∧ ¬(2 ≤ 1) := by
  decide

/-- C1 (amended): within a single window (`0 < interval`), starting
from no live entry, the first `max_requests + 1` sequential decisions
are all admitted (the entry-creating first request does not consume
quota) and the `(max_requests + 2)`-th is rejected through a 429 with
the three rate-limit headers and `x-ratelimit-remaining = 0`. -/
theorem c1_amended_trace (m interval : Nat)
    (idf : ServiceRequest → ExtractResult) (now : Duration)
    (req : ServiceRequest) (k : String)
    (h1 : idf req = ExtractResult.key k) (h2 : 0 < interval) :
    ((run m interval idf now req (m + 2) Store.empty).1.take (m + 1)).all
        CallResult.isAdmitted = true ∧
      (run m interval idf now req (m + 2) Store.empty).1.getLast? =
        some (CallResult.err (CallError.tooManyRequests ⟨m, 0, interval⟩)) := by
  have hfull := run_empty_full m interval idf now req k h1 h2
  have hres : (run m interval idf now req (m + 2) Store.empty).1 =
      CallResult.ok ⟨m, m, interval⟩ ::
        (admittedTrace m m interval m ++
          [CallResult.err (CallError.tooManyRequests ⟨m, 0, interval⟩)]) := by
    rw [hfull]
  rw [hres]
  constructor
  · have hl : (admittedTrace m m interval m).length = m :=
      admittedTrace_length m m interval m
    rw [List.take_succ_cons,
      List.take_append_of_le_length (by rw [hl]),
      List.take_of_length_le (Nat.le_of_eq hl), List.all_cons,
      admittedTrace_all_admitted m interval m m]
    rfl
  · rw [show CallResult.ok (⟨m, m, interval⟩ : Headers) ::
        (admittedTrace m m interval m ++
          [CallResult.err (CallError.tooManyRequests ⟨m, 0, interval⟩)]) =
        (CallResult.ok ⟨m, m, interval⟩ :: admittedTrace m m interval m) ++
          [CallResult.err (CallError.tooManyRequests ⟨m, 0, interval⟩)]
      from rfl]
    exact List.getLast?_concat _

/-- C1 amended witness: concrete instance with `max_requests = 1`. -/
theorem c1_amended_witness :
    ((run 1 60 default_identifier ⟨0, 0⟩ ⟨some "a"⟩ 3 Store.empty).1.take 2).all
        CallResult.isAdmitted = true ∧
      (run 1 60 default_identifier ⟨0, 0⟩ ⟨some "a"⟩ 3 Store.empty).1.getLast? =
        some (CallResult.err (CallError.tooManyRequests ⟨1, 0, 60⟩)) :=
  c1_amended_trace 1 60 default_identifier ⟨0, 0⟩ ⟨some "a"⟩ "a" rfl
    (by decide)

/-- C6 counterexample: with `max_requests = 2`, the first two admitted
responses both report `x-ratelimit-remaining = 2` (the second reports
the pre-decrement count), so the reported value does not strictly
decrease by 1 from the first request to the second. -/
theorem c6_counterexample :
    ((run 2 60 default_identifier ⟨0, 0⟩ ⟨some "a"⟩ 2 Store.empty).1.map
        CallResult.remainingOf) = [some 2, some 2] ∧ (2 : Nat) ≠ 2 - 1 := by
  decide

/-- C6 (amended): within a single window (`0 < interval`), starting
from no live entry, the first `n + 1 ≤ max_requests + 1` sequential
requests are all admitted; the first reports
`x-ratelimit-remaining = max_requests`, and the `(i + 2)`-th reports
`max_requests - i` — the pre-decrement count, which repeats
`max_requests` on the second request and then decreases by exactly 1
per request. -/
theorem c6_amended_trace (m interval n : Nat)
    (idf : ServiceRequest → ExtractResult) (now : Duration)
    (req : ServiceRequest) (k : String)
    (h1 : idf req = ExtractResult.key k) (h2 : 0 < interval)
    (hn : n ≤ m) :
    (run m interval idf now req (n + 1) Store.empty).1 =
      CallResult.ok ⟨m, m, interval⟩ ::
        (List.range n).map (fun i => CallResult.ok ⟨m, m - i, interval⟩) := by
  have hex : Duration.lt now (Duration.add now (Duration.fromSecs interval)) :=
    Duration.lt_add_fromSecs now h2
  have hc1 := call_new m interval idf Store.empty now req k h1
    (Store.get_empty k now)
  have hAs : (Duration.fromSecs interval).asSecs = interval := rfl
  have htr := run_live_trace m interval idf now req k
    (Duration.add now (Duration.fromSecs interval)) h1 hex n m hn
  rw [Duration.add_fromSecs_sub, hAs] at htr
  have hsplit : n + 1 = 1 + n := by omega
  rw [hsplit, run_add]
  have hrun1 : run m interval idf now req 1 Store.empty =
      ([CallResult.ok ⟨m, m, interval⟩],
        Store.single k m (Duration.add now (Duration.fromSecs interval))) := by
    simp [run, hc1, Store.set_empty_create]
  rw [hrun1]
  simp only [htr, admittedTrace_eq_map]
  rfl

/-- C6 amended witness: concrete instance with `max_requests = 2` and
three requests: remaining reported as 2, 2, 1. -/
theorem c6_amended_witness :
    (run 2 60 default_identifier ⟨0, 0⟩ ⟨some "a"⟩ 3 Store.empty).1 =
      CallResult.ok ⟨2, 2, 60⟩ ::
        (List.range 2).map (fun i => CallResult.ok ⟨2, 2 - i, 60⟩) :=
  c6_amended_trace 2 60 2 default_identifier ⟨0, 0⟩ ⟨some "a"⟩ "a" rfl
    (by decide) (by decide)

/-- C7 (confirmed): a request whose key has no live entry creates an
entry with count `max_requests` and expiry `now + interval`, is
admitted, and its response carries `limit = max_requests`,
`remaining = max_requests`, `reset = interval` (whole seconds). -/
theorem c7_new_client (m interval : Nat)
    (idf : ServiceRequest → ExtractResult) (store : Store) (now : Duration)
    (req : ServiceRequest) (k : String)
    (h1 : idf req = ExtractResult.key k)
    (h2 : Store.get store k now = none) :
    (call m interval idf store now req).1 = CallResult.ok ⟨m, m, interval⟩ ∧
      (call m interval idf store now req).2.1 k =
        some ⟨m, Duration.add now (Duration.fromSecs interval)⟩ ∧
      (call m interval idf store now req).2.2 =
        [Msg.get k, Msg.set k m 0
          (some (Duration.add now (Duration.fromSecs interval)))] := by
  rw [call_new m interval idf store now req k h1 h2]
  refine ⟨rfl, ?_, rfl⟩
  simp [Store.set]

/-- C7 witness: concrete new-client decision. -/
theorem c7_witness :
    (call 3 60 default_identifier Store.empty ⟨0, 0⟩ ⟨some "a"⟩).1 =
        CallResult.ok ⟨3, 3, 60⟩ ∧
      (call 3 60 default_identifier Store.empty ⟨0, 0⟩ ⟨some "a"⟩).2.1 "a" =
        some ⟨3, Duration.add ⟨0, 0⟩ (Duration.fromSecs 60)⟩ ∧
      (call 3 60 default_identifier Store.empty ⟨0, 0⟩ ⟨some "a"⟩).2.2 =
        [Msg.get "a", Msg.set "a" 3 0
          (some (Duration.add ⟨0, 0⟩ (Duration.fromSecs 60)))] :=
  c7_new_client 3 60 default_identifier Store.empty ⟨0, 0⟩ ⟨some "a"⟩ "a"
    rfl rfl

/-- C9 (confirmed): for every configuration, `max_requests = 0`
included, a request whose key has no live entry is forwarded
(admitted) unconditionally, and the created entry holds the full
`max_requests` — no quota is consumed by this request. -/
theorem c9_new_client_admits (m interval : Nat)
    (idf : ServiceRequest → ExtractResult) (store : Store) (now : Duration)
    (req : ServiceRequest) (k : String)
    (h1 : idf req = ExtractResult.key k)
    (h2 : Store.get store k now = none) :
    CallResult.isAdmitted (call m interval idf store now req).1 = true ∧
      (call m interval idf store now req).2.1 k =
        some ⟨m, Duration.add now (Duration.fromSecs interval)⟩ := by
  rw [call_new m interval idf store now req k h1 h2]
  refine ⟨rfl, ?_⟩
  simp [Store.set]

/-- C9 witness: `max_requests = 0`, first request still admitted. -/
theorem c9_witness :
    CallResult.isAdmitted
        (call 0 60 default_identifier Store.empty ⟨0, 0⟩ ⟨some "a"⟩).1 = true ∧
      (call 0 60 default_identifier Store.empty ⟨0, 0⟩ ⟨some "a"⟩).2.1 "a" =
        some ⟨0, Duration.add ⟨0, 0⟩ (Duration.fromSecs 60)⟩ :=
  c9_new_client_admits 0 60 default_identifier Store.empty ⟨0, 0⟩ ⟨some "a"⟩
    "a" rfl rfl

/-- C8 (confirmed): every response the middleware produces — forwarded
or rejected — carries the three headers with `limit = max_requests`,
`0 ≤ remaining ≤ max_requests` and `reset ≥ 0`, provided the store only
returns counts in `[0, max_requests]`. -/
theorem c8_header_bounds (m interval : Nat)
    (idf : ServiceRequest → ExtractResult) (store : Store) (now : Duration)
    (req : ServiceRequest) (k : String)
    (h1 : idf req = ExtractResult.key k)
    (hstore : ∀ c, Store.get store k now = some c → c ≤ m) :
    ∀ h : Headers,
      (call m interval idf store now req).1 = CallResult.ok h ∨
        (call m interval idf store now req).1 =
          CallResult.err (CallError.tooManyRequests h) →
      h.limit = m ∧ h.remaining ≤ m ∧ 0 ≤ h.reset := by
  intro h hor
  match hget : Store.get store k now with
  | none =>
    rw [call_new m interval idf store now req k h1 hget] at hor
    rcases hor with hor | hor
    · cases hor
      exact ⟨rfl, Nat.le_refl m, Nat.zero_le _⟩
    · cases hor
  | some c =>
    have hcle : c ≤ m := hstore c hget
    obtain ⟨e, hke, hlive, hval⟩ :
        ∃ e, store k = some e ∧ Duration.lt now e.expiry ∧ e.value = c := by
      unfold Store.get at hget
      rcases hk : store k with _ | e
      · rw [hk] at hget
        have hnone : (none : Option Nat) = some c := hget
        cases hnone
      · rw [hk] at hget
        have hif : (if Duration.lt now e.expiry then some e.value else none) =
            some c := hget
        by_cases hl : Duration.lt now e.expiry
        · rw [if_pos hl] at hif
          exact ⟨e, rfl, hl, Option.some.inj hif⟩
        · rw [if_neg hl] at hif
          cases hif
    by_cases hc : c = 0
    · rw [call_live_zero m interval idf store now req k e h1 hke hlive
        (by rw [hval, hc])] at hor
      rcases hor with hor | hor
      · cases hor
      · cases hor
        exact ⟨rfl, Nat.zero_le m, Nat.zero_le _⟩
    · rw [call_live_pos m interval idf store now req k e h1 hke hlive
        (by rw [hval]; exact hc)] at hor
      rcases hor with hor | hor
      · cases hor
        exact ⟨rfl, by rw [hval]; exact hcle, Nat.zero_le _⟩
      · cases hor

/-- C8 witness: concrete live entry with count 1 under limit 2. -/
theorem c8_witness :
    (Headers.mk 2 1 60).limit = 2 ∧ (Headers.mk 2 1 60).remaining ≤ 2 ∧
      0 ≤ (Headers.mk 2 1 60).reset :=
  c8_header_bounds 2 60 default_identifier (Store.single "a" 1 ⟨60, 0⟩)
    ⟨0, 0⟩ ⟨some "a"⟩ "a" rfl
    (fun c hc => by
      simp [Store.get, Store.single, Duration.lt, Duration.toNanos] at hc
      omega)
    ⟨2, 1, 60⟩ (Or.inl (by decide))

/-- C3 counterexample: on a request with no peer address, the default
identifier's `unwrap` panics — the decision's outcome is a panic, not
an `IdentifierUnavailable` error returned to the caller. -/
theorem c3_counterexample :
    (call 3 60 default_identifier Store.empty ⟨0, 0⟩ ⟨none⟩).1 =
        CallResult.panicked ∧
      (call 3 60 default_identifier Store.empty ⟨0, 0⟩ ⟨none⟩).1 ≠
        CallResult.err (CallError.arError ARError.identifierUnavailable) := by
  decide

/-- C3 (amended): when the identifier extractor cannot produce a key
(no determinable peer address), the default extractor panics inside the
decision (`peer_addr().unwrap()`); no `IdentifierUnavailable` error
outcome is returned, no default key is substituted, the store is
untouched and no store message is sent. -/
theorem c3_amended_panic (m interval : Nat) (store : Store) (now : Duration)
    (req : ServiceRequest) (h : req.peer_ip = none) :
    call m interval default_identifier store now req =
      (CallResult.panicked, store, []) := by
  simp [call, default_identifier, h]

/-- C3 amended witness: concrete request without a peer address. -/
theorem c3_amended_witness :
    call 3 60 default_identifier Store.empty ⟨0, 0⟩ ⟨none⟩ =
      (CallResult.panicked, Store.empty, []) :=
  c3_amended_panic 3 60 Store.empty ⟨0, 0⟩ ⟨none⟩ rfl

/-- C5 counterexample: a decision on an exhausted key (count 0)
resolves to `Err(HttpResponse::TooManyRequests ...)` — the error
channel of the service future — and not to a normal `Ok` response. -/
theorem c5_counterexample :
    (call 2 60 default_identifier (Store.single "a" 0 ⟨60, 0⟩) ⟨0, 0⟩
          ⟨some "a"⟩).1 =
        CallResult.err (CallError.tooManyRequests ⟨2, 0, 60⟩) ∧
      CallResult.isAdmitted
        (call 2 60 default_identifier (Store.single "a" 0 ⟨60, 0⟩) ⟨0, 0⟩
          ⟨some "a"⟩).1 = false := by
  decide

/-- C5 (amended): quota exhaustion produces the 429 rejection with the
three headers, but it is returned through the `Err` channel of the
service call (`Err(response.into())`) — the same channel that carries
store and extraction failures — not as a normal `Ok` response of the
decision. -/
theorem c5_amended_err_channel (m interval : Nat)
    (idf : ServiceRequest → ExtractResult) (store : Store) (now : Duration)
    (req : ServiceRequest) (k : String) (e : Entry)
    (h1 : idf req = ExtractResult.key k) (h2 : store k = some e)
    (h3 : Duration.lt now e.expiry) (h4 : e.value = 0) :
    (call m interval idf store now req).1 =
      CallResult.err (CallError.tooManyRequests
        ⟨m, 0, (Duration.sub e.expiry now).asSecs⟩) := by
  rw [call_live_zero m interval idf store now req k e h1 h2 h3 h4]

/-- C5 amended witness: concrete exhausted entry. -/
theorem c5_amended_witness :
    (call 2 60 default_identifier (Store.single "a" 0 ⟨60, 0⟩) ⟨0, 0⟩
        ⟨some "a"⟩).1 =
      CallResult.err (CallError.tooManyRequests
        ⟨2, 0, (Duration.sub (⟨60, 0⟩ : Duration) ⟨0, 0⟩).asSecs⟩) :=
  c5_amended_err_channel 2 60 default_identifier
    (Store.single "a" 0 ⟨60, 0⟩) ⟨0, 0⟩ ⟨some "a"⟩ "a" ⟨0, ⟨60, 0⟩⟩
    rfl (Store.single_apply_self "a" 0 ⟨60, 0⟩) (by decide) rfl

/-- C4 (code bug): when the store's reply to the TTL query is not an
`Expire` response, the middleware's fallback reset value is
`SystemTime::now() - UNIX_EPOCH + interval` — an epoch-anchored
quantity — instead of the configured `window_duration`: at
`now = 1000 s`, `interval = 60 s` the `x-ratelimit-reset` value is
1060, not 60. -/
theorem c4_reset_fallback_bug :
    resetOf ExpireReply.other ⟨1000, 0⟩ (Duration.fromSecs 60) =
        ⟨1060, 0⟩ ∧
      (resetOf ExpireReply.other ⟨1000, 0⟩ (Duration.fromSecs 60)).asSecs ≠
        60 := by
  decide

/-- C10 (confirmed): `new_transform` stores the configured interval
truncated to whole seconds (`as_secs`), and the decision path rebuilds
the window with `Duration::from_secs`; any sub-second fraction is
discarded, and an interval strictly below one second yields an
effective window duration of zero. -/
theorem c10_interval_truncation (r : RateLimiter)
    (hn : r.interval.nanos < 1000000000) :
    effectiveInterval (new_transform r) = ⟨r.interval.secs, 0⟩ ∧
      (r.interval.toNanos < 1000000000 →
        effectiveInterval (new_transform r) = ⟨0, 0⟩) := by
  constructor
  · rfl
  · intro hlt
    have hz : r.interval.secs = 0 := by
      unfold Duration.toNanos at hlt
      omega
    simp [effectiveInterval, new_transform, Duration.fromSecs,
      Duration.asSecs, hz]

/-- C10 witness: a half-second interval gives a zero effective
window. -/
theorem c10_witness :
    effectiveInterval (new_transform
        ⟨⟨0, 500000000⟩, 3, default_identifier⟩) = ⟨0, 0⟩ ∧
      ((⟨0, 500000000⟩ : Duration).toNanos < 1000000000 →
        effectiveInterval (new_transform
          ⟨⟨0, 500000000⟩, 3, default_identifier⟩) = ⟨0, 0⟩) :=
  c10_interval_truncation ⟨⟨0, 500000000⟩, 3, default_identifier⟩
    (by decide)

theorem exec_cons (m interval : Nat) (k : String) (now : Duration)
    (i : Nat) (sched : List Nat) (st : Store × List Phase) :
    exec m interval k now (i :: sched) st =
      exec m interval k now sched (stepAt m interval k now st i) := rfl

theorem exec_append (m interval : Nat) (k : String) (now : Duration)
    (s1 s2 : List Nat) (st : Store × List Phase) :
    exec m interval k now (s1 ++ s2) st =
      exec m interval k now s2 (exec m interval k now s1 st) := by
  simp [exec, List.foldl_append]

theorem stepAt_cons_succ (m interval : Nat) (k : String) (now : Duration)
    (store : Store) (p : Phase) (qs : List Phase) (i : Nat) :
    stepAt m interval k now (store, p :: qs) (i + 1) =
      ((stepAt m interval k now (store, qs) i).1,
        p :: (stepAt m interval k now (store, qs) i).2) := by
  cases h : qs[i]? <;> simp [stepAt, h]

/-- Steps addressed at decisions `1, 2, ...` leave decision 0's phase
alone and act on the tail, sharing the store. -/
theorem exec_shift (m interval : Nat) (k : String) (now : Duration) :
    ∀ (sched : List Nat) (store : Store) (p : Phase) (qs : List Phase),
      exec m interval k now (sched.map (· + 1)) (store, p :: qs) =
        ((exec m interval k now sched (store, qs)).1,
          p :: (exec m interval k now sched (store, qs)).2) := by
  intro sched
  induction sched with
  | nil => intro store p qs; rfl
  | cons i rest ih =>
    intro store p qs
    rw [List.map_cons, exec_cons, stepAt_cons_succ, ih, exec_cons]

/-- First phase of the racy interleaving: each of `n` decisions has its
`Get` processed; all of them read the same count, and the store is
unchanged. -/
theorem oneEach_trace (m interval : Nat) (k : String) (now : Duration) :
    ∀ (n : Nat) (store : Store),
      exec m interval k now (oneEach n)
          (store, List.replicate n Phase.start) =
        (store, List.replicate n (Phase.gotGet (Store.get store k now))) := by
  intro n
  induction n with
  | zero => intro store; rfl
  | succ n ih =>
    intro store
    have h0 : stepAt m interval k now
        (store, Phase.start :: List.replicate n Phase.start) 0 =
        (store, Phase.gotGet (Store.get store k now) ::
          List.replicate n Phase.start) := by
      simp [stepAt, stepDecision]
    rw [oneEach, List.replicate_succ, exec_cons, h0, exec_shift, ih,
      List.replicate_succ]

/-- Second phase of the racy interleaving: each of `n` decisions that
read the stale count `v ≠ 0` runs to completion in turn; every one of
them is admitted, each sending `Set { value: v, change: 1 }`, and the
store keeps a single entry for the key with unchanged expiry. -/
theorem twoEach_trace (m interval : Nat) (k : String) (now ex : Duration)
    (v : Nat) (hv : v ≠ 0) :
    ∀ (n w : Nat), ∃ w',
      exec m interval k now (twoEach n)
          (Store.single k w ex, List.replicate n (Phase.gotGet (some v))) =
        (Store.single k w' ex,
          List.replicate n (Phase.finished true
            ⟨m, v, (Duration.sub ex now).asSecs⟩)) := by
  intro n
  induction n with
  | zero => intro w; exact ⟨w, rfl⟩
  | succ n ih =>
    intro w
    obtain ⟨w', hw'⟩ := ih (v - 1)
    refine ⟨w', ?_⟩
    have hA : stepAt m interval k now
        (Store.single k w ex, Phase.gotGet (some v) ::
          List.replicate n (Phase.gotGet (some v))) 0 =
        (Store.single k w ex, Phase.gotExpire v (Duration.sub ex now) ::
          List.replicate n (Phase.gotGet (some v))) := by
      simp [stepAt, stepDecision, Store.single_apply_self, Store.ttl,
        resetOf]
    have hB : stepAt m interval k now
        (Store.single k w ex, Phase.gotExpire v (Duration.sub ex now) ::
          List.replicate n (Phase.gotGet (some v))) 0 =
        (Store.single k (v - 1) ex,
          Phase.finished true ⟨m, v, (Duration.sub ex now).asSecs⟩ ::
            List.replicate n (Phase.gotGet (some v))) := by
      simp [stepAt, stepDecision, hv, Store.set_single_dec]
    rw [twoEach, List.replicate_succ, exec_cons, hA, exec_cons, hB,
      exec_shift, hw', List.replicate_succ]

/-- C2 counterexample: two concurrent decisions on one key with
`remaining = 1`, interleaved so that both `Get` messages are processed
before either `Set`: both decisions are admitted — not exactly
`N - 1 = 1` admitted with at least one exhausted. -/
theorem c2_counterexample :
    ((exec 5 60 "a" ⟨0, 0⟩ (racySched 2)
          (Store.single "a" 1 ⟨60, 0⟩, List.replicate 2 Phase.start)).2.countP
        Phase.isAdmittedPhase) = 2 ∧ (2 : Nat) ≠ 2 - 1 := by
  decide

/-- C2 (amended): the count check and the decrement are separate store
messages (`Get`, then `Set { value: c, change: 1 }` carrying the count
read), with the branch decided in the middleware between the two; the
store actor serializes individual messages but not the
read-branch-write sequence, so under `N ≥ 2` concurrent decisions on
one key with `remaining = N - 1` there is an interleaving in which all
`N` are admitted — over-admission the claimed atomic `TryConsume`
would prevent. -/
theorem c2_amended_over_admission (N m interval : Nat) (k : String)
    (now ex : Duration) (hN : 2 ≤ N) (hlive : Duration.lt now ex) :
    ∃ w', exec m interval k now (racySched N)
        (Store.single k (N - 1) ex, List.replicate N Phase.start) =
      (Store.single k w' ex,
        List.replicate N (Phase.finished true
          ⟨m, N - 1, (Duration.sub ex now).asSecs⟩)) := by
  have hv : N - 1 ≠ 0 := by omega
  have hget : Store.get (Store.single k (N - 1) ex) k now = some (N - 1) := by
    simp [Store.get, Store.single, hlive]
  rw [racySched, exec_append, oneEach_trace, hget]
  exact twoEach_trace m interval k now ex (N - 1) hv N (N - 1)

/-- C2 amended witness: two concurrent decisions, `remaining = 1`, both
admitted. -/
theorem c2_amended_witness :
    (exec 5 60 "a" ⟨0, 0⟩ (racySched 2)
        (Store.single "a" 1 ⟨60, 0⟩, List.replicate 2 Phase.start)).2 =
      List.replicate 2 (Phase.finished true ⟨5, 1, 60⟩) := by
  obtain ⟨w', hw'⟩ := c2_amended_over_admission 2 5 60 "a" ⟨0, 0⟩ ⟨60, 0⟩
    (by decide) (by decide)
  have h2 : (exec 5 60 "a" ⟨0, 0⟩ (racySched 2)
      (Store.single "a" 1 ⟨60, 0⟩, List.replicate 2 Phase.start)).2 =
      List.replicate 2 (Phase.finished true
        ⟨5, 2 - 1, (Duration.sub ⟨60, 0⟩ ⟨0, 0⟩).asSecs⟩) :=
    congrArg Prod.snd hw'
  exact h2.trans (by decide)

end RateLimit
